import Mathlib

/-!
Shallow embedding of the Redis-stream worker (`redis.go` of
`golang-queue/redisdb-stream`).

The worker is concurrent Go code; we embed each routine as a pure function
over an explicit oracle describing what the environment (the Redis store,
the `stop`/`exit` channels, and the handoff `tasks` channel) does at every
interaction point, and the routine's visible behaviour as a trace of store
operations and channel events.  Atomic operations (`CompareAndSwapInt32`,
`LoadInt32`) linearize concurrent calls, so sequences of `Shutdown` calls
are modelled as a fold over the linearized call order.
-/

namespace RedisDB

/-- Value stored under a key of a stream entry's field map
(`redis.XMessage.Values` is `map[string]interface{}`): a string, or some
non-string value. -/
inductive RValue where
  | str (s : String)
  | other
deriving DecidableEq

/-- Embedding of `redis.XMessage`: a stream entry with an ID and a
field-value map. -/
structure XMessage where
  id : String
  values : List (String × RValue)
deriving DecidableEq

/-- The fields of the worker's `options` record that `redis.go` uses in the
operations modelled here. -/
structure options where
  streamName : String
  group : String
  consumer : String
  maxLength : Int
deriving DecidableEq

/-- Errors the worker surfaces (the sentinel errors of the golang-queue
`queue` package) together with pass-through store errors. -/
inductive GoError where
  | errQueueShutdown
  | errQueueHasBeenClosed
  | errNoTaskInQueue
  | storeErr (msg : String)
deriving DecidableEq

/-- Visible store operations issued by the worker: `XAck` (with the
success of the call), `XAdd`, and closing the `exit` channel. -/
inductive Event where
  | xack (stream group id : String) (ok : Bool)
  | xadd (stream : String) (maxLen : Int) (values : List (String × RValue))
  | closeExit
deriving DecidableEq

/-- Outcome of the handoff `select` in `fetchTask` for one message: either a
`Request` caller received it on `w.tasks` (and the following `XAck` call
succeeded or failed, recorded in `ackOk`), or the `stop` channel fired
first. -/
inductive Handoff where
  | accepted (ackOk : Bool)
  | stopped
deriving DecidableEq

/-- Result of the `XReadGroup` call as seen by one iteration of `fetchTask`:
the benign `redis.Nil` (block time elapsed with no entry), some other read
error, or a list of streams each holding messages; each message is paired
with the handoff outcome the environment produces for it. -/
inductive ReadResult where
  | nilErr
  | otherErr
  | ok (streams : List (List (XMessage × Handoff)))
deriving DecidableEq

/-- Environment input for one iteration of the `fetchTask` loop: whether the
`stop` channel is already closed at the non-blocking top-of-loop check, and
the result of the group read. -/
structure IterInput where
  stopAtTop : Bool
  read : ReadResult
deriving DecidableEq

/-- How a finite run of the `fetchTask` loop ended: the top-of-loop `stop`
check returned, the stop-during-handoff branch returned, or the supplied
environment inputs ran out with the loop still running. -/
inductive LoopExit where
  | topStop
  | handoffStop
  | fuelOut
deriving DecidableEq

/-- The inner `for _, message := range result.Messages` loop of `fetchTask`:
events emitted, and whether the stop-during-handoff branch returned. -/
def handleMsgs (o : options) : List (XMessage × Handoff) → List Event × Bool
  | [] => ([], false)
  | (m, .accepted ackOk) :: rest =>
      let r := handleMsgs o rest
      (.xack o.streamName o.group m.id ackOk :: r.1, r.2)
  | (m, .stopped) :: _ =>
      ([.xadd o.streamName o.maxLength m.values, .closeExit], true)

/-- The outer `for _, result := range data` loop of `fetchTask`. -/
def handleStreams (o : options) : List (List (XMessage × Handoff)) → List Event × Bool
  | [] => ([], false)
  | s :: rest =>
      let r := handleMsgs o s
      if r.2 then (r.1, true)
      else
        let r2 := handleStreams o rest
        (r.1 ++ r2.1, r2.2)

/-- The `fetchTask` consumer loop, run against a finite list of per-iteration
environment inputs: the trace of store operations it issues and how it
ended. -/
def fetchTask (o : options) : List IterInput → List Event × LoopExit
  | [] => ([], .fuelOut)
  | it :: rest =>
      if it.stopAtTop then ([], .topStop)
      else
        match it.read with
        | .nilErr => fetchTask o rest
        | .otherErr => fetchTask o rest
        | .ok streams =>
            let r := handleStreams o streams
            if r.2 then (r.1, .handoffStop)
            else
              let r2 := fetchTask o rest
              (r.1 ++ r2.1, r2.2)

/-- Messages of one `result.Messages` list whose handoff `select` is actually
reached by `fetchTask` (messages after a stop-during-handoff return are
never offered). -/
def procMsgs : List (XMessage × Handoff) → List (XMessage × Handoff) × Bool
  | [] => ([], false)
  | (m, .accepted ackOk) :: rest =>
      let r := procMsgs rest
      ((m, .accepted ackOk) :: r.1, r.2)
  | (m, .stopped) :: _ => ([(m, .stopped)], true)

/-- Messages of one read result whose handoff `select` is reached. -/
def procStreams : List (List (XMessage × Handoff)) → List (XMessage × Handoff) × Bool
  | [] => ([], false)
  | s :: rest =>
      let r := procMsgs s
      if r.2 then (r.1, true)
      else
        let r2 := procStreams rest
        (r.1 ++ r2.1, r2.2)

/-- All messages whose handoff `select` is reached during a run of
`fetchTask`.  With `Count: 1` in the `XReadGroup` arguments the store
returns at most one entry per read, so these are exactly the entries the
loop reads. -/
def processedMsgs : List IterInput → List (XMessage × Handoff)
  | [] => []
  | it :: rest =>
      if it.stopAtTop then []
      else
        match it.read with
        | .nilErr => processedMsgs rest
        | .otherErr => processedMsgs rest
        | .ok streams =>
            let r := procStreams streams
            if r.2 then r.1
            else r.1 ++ processedMsgs rest

/-- The events `fetchTask` emits for one offered message: an ack on
acceptance, or a requeue (`XAdd` of the entry's field map) followed by the
close of the `exit` channel on stop-during-handoff. -/
def msgBlock (o : options) : XMessage × Handoff → List Event
  | (m, .accepted ackOk) => [.xack o.streamName o.group m.id ackOk]
  | (m, .stopped) => [.xadd o.streamName o.maxLength m.values, .closeExit]

/-- Number of `XAck` calls for a given entry ID in a trace. -/
def ackCount (tr : List Event) (id : String) : Nat :=
  tr.countP fun e =>
    match e with
    | .xack _ _ i _ => i == id
    | _ => false

/-- Which concrete Redis client the worker holds (`w.rdb`): `NewWorker` only
ever builds a `*redis.Client` or a `*redis.ClusterClient`, but the field's
type `redis.Cmdable` admits other implementations, and `Shutdown`'s type
switch closes nothing for those. -/
inductive ClientKind where
  | client
  | cluster
  | otherClient
deriving DecidableEq

/-- Side effects of the winning `Shutdown` call, in order. -/
inductive ShutEffect where
  | closeStop
  | waitRequeue (d : Nat)
  | closeConn
  | closeTasks
deriving DecidableEq

/-- The grace timeout of `Shutdown`'s wait-for-requeue select
(`200 * time.Millisecond`), in time units of one millisecond. -/
def graceTimeout : Nat := 200

/-- Duration of `Shutdown`'s `select` over `w.exit` and `time.After(200ms)`,
given when (if ever) the consumer loop closes `exit`. -/
def shutdownWait (exitArrival : Option Nat) : Nat :=
  match exitArrival with
  | some t => min t graceTimeout
  | none => graceTimeout

/-- The type switch of `Shutdown`: `Close` is called on a `*redis.Client`
or a `*redis.ClusterClient` and on nothing else. -/
def closeClient : ClientKind → List ShutEffect
  | .client => [.closeConn]
  | .cluster => [.closeConn]
  | .otherClient => []

/-- Side-effect sequence of the body passed to `stopOnce.Do`: close `stop`,
wait for requeue bounded by the grace timeout, close the client connection,
close the `tasks` channel. -/
def shutdownBody (k : ClientKind) (exitArrival : Option Nat) : List ShutEffect :=
  .closeStop :: .waitRequeue (shutdownWait exitArrival) :: (closeClient k ++ [.closeTasks])

/-- The worker lifecycle state touched by `Shutdown`: the atomic `stopFlag`
and whether `stopOnce` has fired. -/
structure LifeState where
  stopFlag : Int
  stopOnceDone : Bool
deriving DecidableEq

/-- Lifecycle state of a freshly constructed worker. -/
def initLifeState : LifeState := ⟨0, false⟩

/-- One `Shutdown` call: the `CompareAndSwapInt32(&w.stopFlag, 0, 1)` guard,
then `stopOnce.Do` around the shutdown sequence.  Returns the new state,
the call's result (`nil` or `queue.ErrQueueShutdown`), and the side effects
performed. -/
def Shutdown (k : ClientKind) (exitArrival : Option Nat) (s : LifeState) :
    LifeState × Option GoError × List ShutEffect :=
  if s.stopFlag = 0 then
    if s.stopOnceDone then (⟨1, true⟩, none, [])
    else (⟨1, true⟩, none, shutdownBody k exitArrival)
  else (s, some .errQueueShutdown, [])

/-- A linearized sequence of `Shutdown` calls (the atomic compare-and-swap
linearizes concurrent calls), each with its own `exit`-arrival oracle;
returns each call's result and side effects in order. -/
def runShutdowns (k : ClientKind) : LifeState → List (Option Nat) →
    List (Option GoError × List ShutEffect)
  | _, [] => []
  | s, e :: rest =>
      let r := Shutdown k e s
      r.2 :: runShutdowns k r.1 rest

/-- The private `queue` method: one `XAdd` with the configured stream name
and max length; `addResult` is the store's response to the call. -/
def queue (o : options) (addResult : Option GoError)
    (data : List (String × RValue)) : Option GoError × List Event :=
  (addResult, [.xadd o.streamName o.maxLength data])

/-- The exported `Queue` method: reject with `queue.ErrQueueShutdown` when
the atomically loaded `stopFlag` is 1, otherwise add one entry whose field
map is `{"body": <serialized task bytes>}`.  `taskBytes` stands for
`bytesconv.BytesToStr(task.Bytes())`. -/
def Queue (o : options) (stopFlag : Int) (addResult : Option GoError)
    (taskBytes : String) : Option GoError × List Event :=
  if stopFlag = 1 then (some .errQueueShutdown, [])
  else queue o addResult [("body", .str taskBytes)]

/-- What the `select` inside `Request` observes on one attempt: a message
received from `w.tasks`, the channel observed closed (`ok == false`), or the
one-second `time.After` timeout firing first. -/
inductive ChanEvent where
  | recv (m : XMessage)
  | closed
  | timeout
deriving DecidableEq

/-- Outcome of a `Request` call.  `ok` is a normal return with a `nil`
error; `err` is a `nil` task with the given error; `panicked` is the runtime
panic of the unchecked `task.Values["body"].(string)` assertion; `pending`
means the supplied oracle ran out while the call was still blocked in its
polling loop (the call has not returned). -/
inductive RequestResult (Msg : Type) where
  | ok (m : Msg)
  | err (e : GoError)
  | panicked
  | pending
deriving DecidableEq

/-- The polling loop of `Request`, parametrized by the task-message type:
`zero` is the zero value of `job.Message` and `decode` models
`json.Unmarshal` into it (`none` = unmarshal error, in which case the
zero value is kept and the error is discarded).  `clock` is the retry
counter. -/
def requestLoop {Msg : Type} (zero : Msg) (decode : String → Option Msg) :
    Nat → List ChanEvent → RequestResult Msg
  | _, [] => .pending
  | clock, ev :: rest =>
      match ev with
      | .closed => .err .errQueueHasBeenClosed
      | .recv m =>
          match m.values.lookup "body" with
          | some (.str s) => .ok ((decode s).getD zero)
          | _ => .panicked
      | .timeout =>
          if clock = 5 then .err .errNoTaskInQueue
          else requestLoop zero decode (clock + 1) rest

/-- The exported `Request` method, run against the sequence of events its
`select` observes: starts with `clock = 0`. -/
def Request {Msg : Type} (zero : Msg) (decode : String → Option Msg)
    (evs : List ChanEvent) : RequestResult Msg :=
  requestLoop zero decode 0 evs

/-- Environment input containing no stop signal: the top-of-loop check sees
the `stop` channel still open, and no handoff is interrupted by `stop`. -/
def noStopInput (it : IterInput) : Prop :=
  it.stopAtTop = false ∧
  ∀ streams, it.read = .ok streams →
    ∀ s ∈ streams, ∀ p ∈ s, p.2 ≠ Handoff.stopped

/-- Whether a handoff outcome is the accepted one. -/
def isAcc : Handoff → Bool
  | .accepted _ => true
  | .stopped => false

/-- Worker options of the sample run used to instantiate the handoff
invariant. -/
def sampleOpts : options := ⟨"s", "g", "c", 10⟩

/-- Sample entry that is handed off and accepted. -/
def sampleMsgA : XMessage := ⟨"a", [("k", RValue.str "v")]⟩

/-- Sample entry whose handoff is interrupted by the stop signal. -/
def sampleMsgB : XMessage := ⟨"b", [("k", RValue.str "w")]⟩

/-- Sample run: entry "a" accepted and acked, then entry "b" requeued when
stop fires during its handoff. -/
def sampleInputs : List IterInput :=
  [⟨false, .ok [[(sampleMsgA, .accepted true)]]⟩,
   ⟨false, .ok [[(sampleMsgB, .stopped)]]⟩]

/-- Consuming `k` consecutive timeouts advances the retry counter by `k`
without returning, as long as the counter never reaches the cutoff. -/
theorem requestLoop_skip {Msg : Type} (zero : Msg) (decode : String → Option Msg)
    (k : Nat) :
    ∀ clock, clock + k ≤ 5 → ∀ evs,
      requestLoop zero decode clock (List.replicate k .timeout ++ evs) =
        requestLoop zero decode (clock + k) evs := by
  induction k with
  | zero => intro clock _ evs; simp
  | succ n ih =>
      intro clock h evs
      have hc : clock ≠ 5 := by omega
      have heq : clock + 1 + n = clock + (n + 1) := by omega
      have hrec := ih (clock + 1) (by omega) evs
      rw [heq] at hrec
      simpa [List.replicate_succ, requestLoop, hc] using hrec

/-- C3 (counterexample): after exactly five consecutive one-second timeouts
with nothing received, `Request` has not returned `ErrNoTaskInQueue` — it is
still blocked polling; the error is returned only after the sixth timeout
(the `clock == 5` break fires before the increment, on attempt six). -/
theorem Request_after_five_timeouts_still_polling :
    Request (0 : Nat) (fun _ => none) (List.replicate 5 .timeout) ≠
        RequestResult.err .errNoTaskInQueue ∧
    Request (0 : Nat) (fun _ => none) (List.replicate 6 .timeout) =
        RequestResult.err .errNoTaskInQueue := by
  constructor
  · decide
  · decide

/-- C3 (amended): when no entry arrives and the channel is never closed,
`Request` polls with a one-time-unit per-attempt timeout and returns
`ErrNoTaskInQueue` after the sixth consecutive timeout (≈6 time units
total); after at most five timeouts it is still polling. -/
theorem Request_noTask_after_six_timeouts {Msg : Type} (zero : Msg)
    (decode : String → Option Msg) :
    (∀ k, k ≤ 5 → Request zero decode (List.replicate k .timeout) =
        RequestResult.pending) ∧
    (∀ evs, Request zero decode (List.replicate 6 .timeout ++ evs) =
        RequestResult.err .errNoTaskInQueue) := by
  constructor
  · intro k hk
    have h := requestLoop_skip zero decode k 0 (by omega) []
    simpa [Request, requestLoop] using h
  · intro evs
    rfl

/-- C3 witness: concrete instantiation of both conjuncts. -/
theorem Request_noTask_after_six_timeouts_witness :
    (3 : Nat) ≤ 5 ∧
    Request (0 : Nat) (fun _ => none) (List.replicate 3 .timeout) =
        RequestResult.pending ∧
    Request (0 : Nat) (fun _ => none) (List.replicate 6 .timeout ++ []) =
        RequestResult.err .errNoTaskInQueue :=
  ⟨by decide,
   (Request_noTask_after_six_timeouts 0 (fun _ => none)).1 3 (by decide),
   (Request_noTask_after_six_timeouts 0 (fun _ => none)).2 []⟩

/-- C6: a `Request` call that observes the handoff channel closed (after at
most five timeouts, i.e. before giving up) returns
`ErrQueueHasBeenClosed`, an error distinct from the `ErrNoTaskInQueue`
returned on timeout exhaustion. -/
theorem Request_closed_vs_noTask {Msg : Type} (zero : Msg)
    (decode : String → Option Msg) (k : Nat) (hk : k ≤ 5)
    (rest : List ChanEvent) :
    Request zero decode (List.replicate k .timeout ++ .closed :: rest) =
        RequestResult.err .errQueueHasBeenClosed ∧
    GoError.errQueueHasBeenClosed ≠ GoError.errNoTaskInQueue := by
  refine ⟨?_, by decide⟩
  have h := requestLoop_skip zero decode k 0 (by omega) (.closed :: rest)
  simpa [Request, requestLoop] using h

/-- C6 witness: the channel observed closed on the first attempt. -/
theorem Request_closed_vs_noTask_witness :
    (0 : Nat) ≤ 5 ∧
    Request (0 : Nat) (fun _ => none)
        (List.replicate 0 .timeout ++ .closed :: []) =
      RequestResult.err .errQueueHasBeenClosed :=
  ⟨by decide, (Request_closed_vs_noTask 0 (fun _ => none) 0 (by decide) []).1⟩

/-- C9: on receiving an entry whose "body" field is a string, `Request`
deserializes it and returns normally; when deserialization fails the error
is discarded and the zero-value task message is returned with a `nil`
error. -/
theorem Request_decode_failure_swallowed {Msg : Type} (zero : Msg)
    (decode : String → Option Msg) (k : Nat) (hk : k ≤ 5) (m : XMessage)
    (s : String) (rest : List ChanEvent)
    (hbody : m.values.lookup "body" = some (.str s)) :
    Request zero decode (List.replicate k .timeout ++ .recv m :: rest) =
        RequestResult.ok ((decode s).getD zero) ∧
    (decode s = none →
      Request zero decode (List.replicate k .timeout ++ .recv m :: rest) =
        RequestResult.ok zero) := by
  have h := requestLoop_skip zero decode k 0 (by omega) (.recv m :: rest)
  constructor
  · simp [Request, h, requestLoop, hbody]
  · intro hd
    simp [Request, h, requestLoop, hbody, hd]

/-- C9 witness: a received entry whose body fails to deserialize yields the
zero task and no error. -/
theorem Request_decode_failure_swallowed_witness :
    (0 : Nat) ≤ 5 ∧
    (([("body", RValue.str "x")] : List (String × RValue)).lookup "body" =
        some (RValue.str "x")) ∧
    Request (0 : Nat) (fun _ => none)
        (List.replicate 0 .timeout ++
          .recv ⟨"1", [("body", RValue.str "x")]⟩ :: []) =
      RequestResult.ok 0 :=
  ⟨by decide, by decide,
   (Request_decode_failure_swallowed 0 (fun _ => none) 0 (by decide)
      ⟨"1", [("body", RValue.str "x")]⟩ "x" [] (by decide)).2 rfl⟩

/-- C10: the unchecked `task.Values["body"].(string)` assertion panics
exactly when the received entry has no "body" key or a non-string "body"
value; `Request` returns normally on a received entry only when the body is
a string. -/
theorem Request_panics_iff_body_not_string {Msg : Type} (zero : Msg)
    (decode : String → Option Msg) (k : Nat) (hk : k ≤ 5) (m : XMessage)
    (rest : List ChanEvent) :
    Request zero decode (List.replicate k .timeout ++ .recv m :: rest) =
        RequestResult.panicked ↔
      ∀ s, m.values.lookup "body" ≠ some (.str s) := by
  have h := requestLoop_skip zero decode k 0 (by omega) (.recv m :: rest)
  rw [Request, h]
  cases hb : m.values.lookup "body" with
  | none => simp [requestLoop, hb]
  | some v =>
      cases v with
      | str s => simp [requestLoop, hb]
      | other => simp [requestLoop, hb]

/-- C10 witness: an entry with an empty field map makes `Request` panic. -/
theorem Request_panics_iff_body_not_string_witness :
    (0 : Nat) ≤ 5 ∧
    Request (0 : Nat) (fun _ => none)
        (List.replicate 0 .timeout ++ .recv ⟨"1", []⟩ :: []) =
      RequestResult.panicked :=
  ⟨by decide,
   (Request_panics_iff_body_not_string 0 (fun _ => none) 0 (by decide)
      ⟨"1", []⟩ []).mpr (by intro s; simp)⟩

/-- C2: in any linearized sequence of `Shutdown` calls starting from a fresh
worker, exactly the first call wins the compare-and-swap and performs the
shutdown sequence (close `stop`, bounded wait, close connection, close
`tasks`); every later call returns `queue.ErrQueueShutdown` with no side
effects. -/
theorem Shutdown_single_winner (k : ClientKind) (e : Option Nat)
    (es : List (Option Nat)) :
    runShutdowns k initLifeState (e :: es) =
      (none, shutdownBody k e) ::
        es.map (fun _ => (some GoError.errQueueShutdown,
          ([] : List ShutEffect))) := by
  have hdone : ∀ (l : List (Option Nat)) (s : LifeState), s.stopFlag = 1 →
      runShutdowns k s l =
        l.map (fun _ => (some GoError.errQueueShutdown,
          ([] : List ShutEffect))) := by
    intro l
    induction l with
    | nil => intro s _; rfl
    | cons e' rest ih =>
        intro s hs
        have h0 : ¬ s.stopFlag = 0 := by omega
        simp [runShutdowns, Shutdown, h0, ih s hs]
  simp [runShutdowns, Shutdown, initLifeState, hdone es ⟨1, true⟩ rfl]

/-- C7: the winning `Shutdown` call waits for the loop's completion signal
or the 200-unit grace timeout, whichever comes first (so the wait is always
at most the grace timeout), and then proceeds to close the client connection
and the handoff channel.  `NewWorker` only ever builds a plain or cluster
client, whence the hypothesis on the client kind. -/
theorem Shutdown_winner_bounded_wait (k : ClientKind) (e : Option Nat)
    (s : LifeState) (hk : k ≠ .otherClient) (h0 : s.stopFlag = 0)
    (h1 : s.stopOnceDone = false) :
    (Shutdown k e s).2.2 =
      [.closeStop, .waitRequeue (shutdownWait e), .closeConn, .closeTasks] ∧
    shutdownWait e ≤ graceTimeout := by
  constructor
  · cases k with
    | client => simp [Shutdown, h0, h1, shutdownBody, closeClient]
    | cluster => simp [Shutdown, h0, h1, shutdownBody, closeClient]
    | otherClient => exact absurd rfl hk
  · cases e with
    | none => simp [shutdownWait]
    | some t => simp [shutdownWait]

/-- C7 witness: a plain client whose consumer loop never signals
completion. -/
theorem Shutdown_winner_bounded_wait_witness :
    (ClientKind.client ≠ ClientKind.otherClient) ∧
    initLifeState.stopFlag = 0 ∧ initLifeState.stopOnceDone = false ∧
    ((Shutdown .client none initLifeState).2.2 =
      [.closeStop, .waitRequeue (shutdownWait none), .closeConn,
       .closeTasks] ∧
     shutdownWait none ≤ graceTimeout) :=
  ⟨by decide, rfl, rfl,
   Shutdown_winner_bounded_wait .client none initLifeState (by decide) rfl rfl⟩

/-- C5: `Queue` returns `queue.ErrQueueShutdown` with no store operation
when the atomically loaded `stopFlag` is 1; otherwise it issues exactly one
`XAdd` of an entry whose field map is the single field "body" holding the
serialized task bytes, with the configured max-length trim. -/
theorem Queue_reject_or_single_add (o : options) (stopFlag : Int)
    (addResult : Option GoError) (taskBytes : String) :
    (stopFlag = 1 →
      Queue o stopFlag addResult taskBytes = (some .errQueueShutdown, [])) ∧
    (stopFlag ≠ 1 →
      Queue o stopFlag addResult taskBytes =
        (addResult,
         [.xadd o.streamName o.maxLength [("body", .str taskBytes)]])) := by
  constructor <;> intro h <;> simp [Queue, queue, h]

/-- C5 witness: both branches at concrete inputs. -/
theorem Queue_reject_or_single_add_witness :
    ((1 : Int) = 1 ∧
      Queue ⟨"s", "g", "c", 10⟩ 1 none "p" = (some .errQueueShutdown, [])) ∧
    ((0 : Int) ≠ 1 ∧
      Queue ⟨"s", "g", "c", 10⟩ 0 none "p" =
        (none, [.xadd "s" 10 [("body", .str "p")]])) :=
  ⟨⟨rfl, (Queue_reject_or_single_add ⟨"s", "g", "c", 10⟩ 1 none "p").1 rfl⟩,
   ⟨by decide,
    (Queue_reject_or_single_add ⟨"s", "g", "c", 10⟩ 0 none "p").2 (by decide)⟩⟩

/-- The inner message loop emits the `exit`-channel close exactly when its
stop-during-handoff branch fires. -/
theorem handleMsgs_closeExit (o : options) :
    ∀ l : List (XMessage × Handoff),
      Event.closeExit ∈ (handleMsgs o l).1 ↔ (handleMsgs o l).2 = true := by
  intro l
  induction l with
  | nil => simp [handleMsgs]
  | cons p rest ih =>
      obtain ⟨m, h⟩ := p
      cases h with
      | accepted ackOk => simpa [handleMsgs] using ih
      | stopped => simp [handleMsgs]

/-- The outer stream loop emits the `exit`-channel close exactly when its
stop-during-handoff branch fires. -/
theorem handleStreams_closeExit (o : options) :
    ∀ ls : List (List (XMessage × Handoff)),
      Event.closeExit ∈ (handleStreams o ls).1 ↔
        (handleStreams o ls).2 = true := by
  intro ls
  induction ls with
  | nil => simp [handleStreams]
  | cons s rest ih =>
      cases hr : (handleMsgs o s).2 with
      | true => simp [handleStreams, hr, (handleMsgs_closeExit o s).mpr hr]
      | false =>
          have hno : Event.closeExit ∉ (handleMsgs o s).1 := fun hmem => by
            rw [(handleMsgs_closeExit o s).mp hmem] at hr
            exact Bool.noConfusion hr
          simp [handleStreams, hr, hno, ih]

/-- The `fetchTask` trace contains the close of the `exit` channel exactly
when the run ended through the stop-during-handoff branch. -/
theorem fetchTask_closeExit (o : options) :
    ∀ inputs : List IterInput,
      Event.closeExit ∈ (fetchTask o inputs).1 ↔
        (fetchTask o inputs).2 = LoopExit.handoffStop := by
  intro inputs
  induction inputs with
  | nil => simp [fetchTask]
  | cons it rest ih =>
      cases hst : it.stopAtTop with
      | true => simp [fetchTask, hst]
      | false =>
          cases hrd : it.read with
          | nilErr => simpa [fetchTask, hst, hrd] using ih
          | otherErr => simpa [fetchTask, hst, hrd] using ih
          | ok streams =>
              cases hr : (handleStreams o streams).2 with
              | true =>
                  simp [fetchTask, hst, hrd, hr,
                    (handleStreams_closeExit o streams).mpr hr]
              | false =>
                  have hno : Event.closeExit ∉ (handleStreams o streams).1 :=
                    fun hmem => by
                      rw [(handleStreams_closeExit o streams).mp hmem] at hr
                      exact Bool.noConfusion hr
                  simp [fetchTask, hst, hrd, hr, hno, ih]

/-- C4 (counterexample): when the stop signal is observed by the
non-blocking check at the top of the loop, `fetchTask` returns without
closing the completion signal — the loop does not have a single exit point
that always closes it. -/
theorem fetchTask_top_exit_without_closeExit :
    (fetchTask ⟨"s", "g", "c", 10⟩ [⟨true, .nilErr⟩]).2 = LoopExit.topStop ∧
    Event.closeExit ∉ (fetchTask ⟨"s", "g", "c", 10⟩ [⟨true, .nilErr⟩]).1 := by
  constructor
  · rfl
  · decide

/-- C4 (amended): the consumer loop has two exit points — the top-of-loop
stop check, which returns without closing the completion signal, and the
stop-during-handoff branch, which is the only path that closes it: the
trace contains the close exactly when the run ends through the handoff-stop
branch, and never when it ends through the top-of-loop check. -/
theorem fetchTask_closeExit_iff_handoffStop (o : options)
    (inputs : List IterInput) :
    ((fetchTask o inputs).2 = LoopExit.handoffStop ↔
      Event.closeExit ∈ (fetchTask o inputs).1) ∧
    ((fetchTask o inputs).2 = LoopExit.topStop →
      Event.closeExit ∉ (fetchTask o inputs).1) := by
  constructor
  · exact (fetchTask_closeExit o inputs).symm
  · intro ht hmem
    have hh := (fetchTask_closeExit o inputs).mp hmem
    rw [ht] at hh
    exact LoopExit.noConfusion hh

/-- A message list with no stop-interrupted handoff never fires the inner
loop's exit branch. -/
theorem handleMsgs_no_stop (o : options) :
    ∀ l : List (XMessage × Handoff),
      (∀ p ∈ l, p.2 ≠ Handoff.stopped) → (handleMsgs o l).2 = false := by
  intro l
  induction l with
  | nil => intro _; rfl
  | cons p rest ih =>
      intro hno
      obtain ⟨m, h⟩ := p
      cases h with
      | accepted ackOk =>
          have := ih fun q hq => hno q (by simp [hq])
          simpa [handleMsgs] using this
      | stopped => exact absurd rfl (hno (m, .stopped) (by simp))

/-- A read result with no stop-interrupted handoff never fires the outer
loop's exit branch. -/
theorem handleStreams_no_stop (o : options) :
    ∀ ls : List (List (XMessage × Handoff)),
      (∀ s ∈ ls, ∀ p ∈ s, p.2 ≠ Handoff.stopped) →
      (handleStreams o ls).2 = false := by
  intro ls
  induction ls with
  | nil => intro _; rfl
  | cons s rest ih =>
      intro hno
      have h1 : (handleMsgs o s).2 = false :=
        handleMsgs_no_stop o s (hno s (by simp))
      have h2 := ih fun t ht => hno t (by simp [ht])
      simp [handleStreams, h1, h2]

/-- C8: store failures never terminate the consumer loop: a read error
(including the benign `redis.Nil` empty result) contributes no events and
the loop simply continues; an ack failure after a successful handoff is
recorded and the loop continues; and a run whose environment never signals
stop (neither at the top-of-loop check nor during a handoff) never exits
the loop. -/
theorem fetchTask_store_errors_nonfatal (o : options) :
    (∀ rest, fetchTask o (⟨false, .nilErr⟩ :: rest) = fetchTask o rest) ∧
    (∀ rest, fetchTask o (⟨false, .otherErr⟩ :: rest) = fetchTask o rest) ∧
    (∀ (m : XMessage) (ackOk : Bool) (rest : List IterInput),
      fetchTask o (⟨false, .ok [[(m, .accepted ackOk)]]⟩ :: rest) =
        (Event.xack o.streamName o.group m.id ackOk :: (fetchTask o rest).1,
         (fetchTask o rest).2)) ∧
    (∀ inputs, (∀ it ∈ inputs, noStopInput it) →
      (fetchTask o inputs).2 = LoopExit.fuelOut) := by
  refine ⟨fun rest => by simp [fetchTask], fun rest => by simp [fetchTask],
    fun m ackOk rest => by simp [fetchTask, handleStreams, handleMsgs], ?_⟩
  intro inputs
  induction inputs with
  | nil => intro _; rfl
  | cons it rest ih =>
      intro hno
      obtain ⟨hst, hread⟩ := hno it (by simp)
      have hrest := ih fun x hx => hno x (by simp [hx])
      cases hrd : it.read with
      | nilErr => simp [fetchTask, hst, hrd, hrest]
      | otherErr => simp [fetchTask, hst, hrd, hrest]
      | ok streams =>
          have hS : (handleStreams o streams).2 = false :=
            handleStreams_no_stop o streams (hread streams hrd)
          simp [fetchTask, hst, hrd, hS, hrest]

/-- C8 witness: a run consisting of one benign empty read never exits. -/
theorem fetchTask_store_errors_nonfatal_witness :
    (∀ it ∈ [(⟨false, .nilErr⟩ : IterInput)], noStopInput it) ∧
    (fetchTask ⟨"s", "g", "c", 10⟩ [⟨false, .nilErr⟩]).2 = LoopExit.fuelOut := by
  have hno : ∀ it ∈ [(⟨false, .nilErr⟩ : IterInput)], noStopInput it := by
    intro it hit
    simp only [List.mem_singleton] at hit
    subst hit
    exact ⟨rfl, fun streams h => ReadResult.noConfusion h⟩
  exact ⟨hno,
    (fetchTask_store_errors_nonfatal ⟨"s", "g", "c", 10⟩).2.2.2 _ hno⟩

/-- The inner message loop's trace is the concatenation of the per-message
blocks of the messages whose handoff is reached. -/
theorem handleMsgs_eq_proc (o : options) :
    ∀ l : List (XMessage × Handoff),
      handleMsgs o l =
        ((procMsgs l).1.flatMap (msgBlock o), (procMsgs l).2) := by
  intro l
  induction l with
  | nil => rfl
  | cons p rest ih =>
      obtain ⟨m, h⟩ := p
      cases h with
      | accepted ackOk => simp [handleMsgs, procMsgs, msgBlock, ih]
      | stopped => simp [handleMsgs, procMsgs, msgBlock]

/-- The outer stream loop's trace is the concatenation of the per-message
blocks of the messages whose handoff is reached. -/
theorem handleStreams_eq_proc (o : options) :
    ∀ ls : List (List (XMessage × Handoff)),
      handleStreams o ls =
        ((procStreams ls).1.flatMap (msgBlock o), (procStreams ls).2) := by
  intro ls
  induction ls with
  | nil => rfl
  | cons s rest ih =>
      cases hr : (procMsgs s).2 with
      | true => simp [handleStreams, procStreams, handleMsgs_eq_proc, hr]
      | false => simp [handleStreams, procStreams, handleMsgs_eq_proc, hr, ih]

/-- The `fetchTask` trace is the concatenation of the per-message blocks of
the messages whose handoff is reached during the run. -/
theorem fetchTask_trace_eq_proc (o : options) :
    ∀ inputs : List IterInput,
      (fetchTask o inputs).1 = (processedMsgs inputs).flatMap (msgBlock o) := by
  intro inputs
  induction inputs with
  | nil => rfl
  | cons it rest ih =>
      cases hst : it.stopAtTop with
      | true => simp [fetchTask, processedMsgs, hst]
      | false =>
          cases hrd : it.read with
          | nilErr => simpa [fetchTask, processedMsgs, hst, hrd] using ih
          | otherErr => simpa [fetchTask, processedMsgs, hst, hrd] using ih
          | ok streams =>
              cases hr : (procStreams streams).2 with
              | true =>
                  simp [fetchTask, processedMsgs, hst, hrd,
                    handleStreams_eq_proc, hr]
              | false =>
                  simp [fetchTask, processedMsgs, hst, hrd,
                    handleStreams_eq_proc, hr, ih]

/-- Ack calls in a concatenation of per-message blocks are counted by the
accepted messages carrying the given ID. -/
theorem ackCount_flatMap (o : options) (id : String) :
    ∀ ps : List (XMessage × Handoff),
      ackCount (ps.flatMap (msgBlock o)) id =
        ps.countP (fun p => p.1.id == id && isAcc p.2) := by
  intro ps
  induction ps with
  | nil => rfl
  | cons p rest ih =>
      obtain ⟨m, h⟩ := p
      cases h with
      | accepted ackOk =>
          simp only [List.flatMap_cons, msgBlock, ackCount, List.countP_append,
            List.countP_cons, List.countP_nil, isAcc] at *
          simp [ih, Nat.add_comm]
      | stopped =>
          simp only [List.flatMap_cons, msgBlock, ackCount, List.countP_append,
            List.countP_cons, List.countP_nil, isAcc] at *
          simp [ih, Nat.add_comm]

/-- Under distinct entry IDs, an accepted message is counted exactly once
among the acked messages with its ID. -/
theorem countP_acc_of_mem (m : XMessage) (ackOk : Bool) :
    ∀ ps : List (XMessage × Handoff),
      (ps.map (fun p => p.1.id)).Nodup →
      (m, Handoff.accepted ackOk) ∈ ps →
      ps.countP (fun p => p.1.id == m.id && isAcc p.2) = 1 := by
  intro ps
  induction ps with
  | nil => intro _ hm; exact absurd hm (List.not_mem_nil _)
  | cons q rest ih =>
      intro hids hm
      rw [List.map_cons, List.nodup_cons] at hids
      obtain ⟨hq, hrest⟩ := hids
      rcases List.mem_cons.mp hm with hm | hm
      · subst hm
        have hzero : rest.countP (fun p => p.1.id == m.id && isAcc p.2) = 0 := by
          rw [List.countP_eq_zero]
          intro p hp hpred
          obtain ⟨h1, _⟩ := (Bool.and_eq_true _ _).mp hpred
          have hpid : p.1.id = m.id := eq_of_beq h1
          refine hq ?_
          show m.id ∈ rest.map (fun p => p.1.id)
          rw [← hpid]
          exact List.mem_map_of_mem (fun p => p.1.id) hp
        rw [List.countP_cons, hzero]
        simp [isAcc]
      · have hqpred : (q.1.id == m.id && isAcc q.2) = false := by
          cases hcase : (q.1.id == m.id && isAcc q.2) with
          | false => rfl
          | true =>
              obtain ⟨h1, _⟩ := (Bool.and_eq_true _ _).mp hcase
              have hqid : q.1.id = m.id := eq_of_beq h1
              refine absurd ?_ hq
              rw [hqid]
              exact List.mem_map_of_mem (fun p => p.1.id) hm
        rw [List.countP_cons]
        simp [hqpred, ih hrest hm]

/-- Under distinct entry IDs, a stop-interrupted message is never counted
among the acked messages with its ID. -/
theorem countP_acc_of_stopped (m : XMessage) :
    ∀ ps : List (XMessage × Handoff),
      (ps.map (fun p => p.1.id)).Nodup →
      (m, Handoff.stopped) ∈ ps →
      ps.countP (fun p => p.1.id == m.id && isAcc p.2) = 0 := by
  intro ps hids hm
  rw [List.countP_eq_zero]
  intro p hp hpred
  obtain ⟨h1, h2⟩ := (Bool.and_eq_true _ _).mp hpred
  have hpid : p.1.id = m.id := eq_of_beq h1
  have hpm : p = (m, Handoff.stopped) :=
    List.inj_on_of_nodup_map hids hp hm hpid
  rw [hpm] at h2
  exact Bool.noConfusion h2

/-- A stop-interrupted message contributes its requeue `XAdd` to the
concatenation of per-message blocks. -/
theorem xadd_mem_of_stopped (o : options) (m : XMessage)
    (ps : List (XMessage × Handoff)) (hm : (m, Handoff.stopped) ∈ ps) :
    Event.xadd o.streamName o.maxLength m.values ∈ ps.flatMap (msgBlock o) :=
  List.mem_flatMap.mpr ⟨(m, Handoff.stopped), hm, by simp [msgBlock]⟩

/-- C1: every entry whose handoff the consumer loop reaches (with `Count: 1`
every read delivers at most one entry, so these are the entries the loop
reads) meets exactly one of two fates, provided entry IDs are distinct: an
accepted entry is acked exactly once and never requeued, and a
stop-interrupted entry is requeued via `XAdd` and never acked. -/
theorem fetchTask_ack_xor_requeue (o : options) (inputs : List IterInput)
    (hids : ((processedMsgs inputs).map (fun p => p.1.id)).Nodup) :
    ∀ m h, (m, h) ∈ processedMsgs inputs →
      ((∃ ackOk, h = Handoff.accepted ackOk) →
        ackCount (fetchTask o inputs).1 m.id = 1 ∧
        (m, Handoff.stopped) ∉ processedMsgs inputs) ∧
      (h = Handoff.stopped →
        ackCount (fetchTask o inputs).1 m.id = 0 ∧
        Event.xadd o.streamName o.maxLength m.values ∈ (fetchTask o inputs).1 ∧
        ∀ ackOk, (m, Handoff.accepted ackOk) ∉ processedMsgs inputs) := by
  intro m h hm
  have htr := fetchTask_trace_eq_proc o inputs
  constructor
  · rintro ⟨ackOk, rfl⟩
    refine ⟨?_, ?_⟩
    · rw [htr, ackCount_flatMap]
      exact countP_acc_of_mem m ackOk _ hids hm
    · intro hstop
      have hcon := List.inj_on_of_nodup_map hids hm hstop rfl
      simp at hcon
  · rintro rfl
    refine ⟨?_, ?_, ?_⟩
    · rw [htr, ackCount_flatMap]
      exact countP_acc_of_stopped m _ hids hm
    · rw [htr]
      exact xadd_mem_of_stopped o m _ hm
    · intro ackOk hacc
      have hcon := List.inj_on_of_nodup_map hids hacc hm rfl
      simp at hcon

/-- C1 witness: in the sample run, the accepted entry "a" is acked exactly
once and never requeued. -/
theorem fetchTask_ack_xor_requeue_witness :
    ((processedMsgs sampleInputs).map (fun p => p.1.id)).Nodup ∧
    (sampleMsgA, Handoff.accepted true) ∈ processedMsgs sampleInputs ∧
    ackCount (fetchTask sampleOpts sampleInputs).1 sampleMsgA.id = 1 ∧
    (sampleMsgA, Handoff.stopped) ∉ processedMsgs sampleInputs := by
  have h := (fetchTask_ack_xor_requeue sampleOpts sampleInputs (by decide)
      sampleMsgA (.accepted true) (by decide)).1 ⟨true, rfl⟩
  exact ⟨by decide, by decide, h.1, h.2⟩

end RedisDB
